import Mathlib

/-!
Shallow embedding of the myEQ (ZooEQ) parametric equalizer and proofs about it.

Sources embedded: sources/PluginProcessor.cpp, sources/PluginEditor.h,
sources/PluginEditor.cpp.  The header PluginProcessor.h is not part of the
available sources; the entities it defines (Fifo, SingleChannelSampleFifo,
updateCutFilter, makeLowCutFilter, makeHighCutFilter, the chain types) are
modelled from the specification, and each such definition says so in its
doc comment.

Modelling conventions:
* float / double arithmetic is modelled as exact arithmetic over ℚ;
* external JUCE library functions with transcendental content (std::log10,
  std::pow(10,·), IIR magnitude responses, the FFT transform, the biquad
  sample recurrence, the coefficient designers) are abstract parameters of
  the definitions that call them;
* a float value that may be NaN or infinite is modelled as Option ℚ, with
  none standing for a non-finite value.
-/

namespace ZooEQ

/-- Abstract versions of the transcendental real functions the code calls:
`log10` models std::log10 and `pow10` models std::pow(10, ·) /
juce::mapToLog10's exponential. -/
structure RealFuns where
  log10 : ℚ → ℚ
  pow10 : ℚ → ℚ

/-- juce::jmap(sourceValue, sourceMin, sourceMax, targetMin, targetMax):
the linear map sending the source range onto the target range. -/
def jmap (v s0 e0 t0 t1 : ℚ) : ℚ :=
  t0 + ((t1 - t0) * (v - s0)) / (e0 - s0)

/-- juce::mapToLog10(value, min, max) = 10 ^ (value*(log10 max - log10 min) + log10 min). -/
def mapToLog10 (rf : RealFuns) (value min max : ℚ) : ℚ :=
  rf.pow10 (value * (rf.log10 max - rf.log10 min) + rf.log10 min)

/-- juce::mapFromLog10(value, min, max) = (log10 value - log10 min) / (log10 max - log10 min). -/
def mapFromLog10 (rf : RealFuns) (value min max : ℚ) : ℚ :=
  (rf.log10 value - rf.log10 min) / (rf.log10 max - rf.log10 min)

/-- juce::Decibels::gainToDecibels(gain, minusInfinityDb): for positive gain,
20·log10(gain) floored at minusInfinityDb; otherwise minusInfinityDb. -/
def gainToDecibels (rf : RealFuns) (gain minusInfinityDb : ℚ) : ℚ :=
  if 0 < gain then max minusInfinityDb (rf.log10 gain * 20) else minusInfinityDb

/-- ChainSettings as filled in by getChainSettings (PluginProcessor.cpp 234-250):
one snapshot of the parameter store.  Slopes are the raw choice indices 0..3. -/
structure ChainSettings where
  lowCutFreq : ℚ
  highCutFreq : ℚ
  peakFreq : ℚ
  peakGainInDecibels : ℚ
  peakQuality : ℚ
  lowCutSlope : ℕ
  highCutSlope : ℕ
  lowCutBypassed : Bool
  peakBypassed : Bool
  highCutBypassed : Bool
  deriving DecidableEq

/-- getChainSettings (PluginProcessor.cpp 234-250) reads every filter parameter
from the parameter store.  The store is modelled as the ChainSettings snapshot
it currently holds, so the read returns it. -/
def getChainSettings (apvts : ChainSettings) : ChainSettings := apvts

/-- One IIR filter stage: a coefficient object (type parameter C, the contents
of juce::dsp::IIR::Coefficients) plus the stage's internal delay-register
state (type parameter S). -/
structure Filter (C S : Type) where
  coefficients : C
  state : S
  deriving DecidableEq

/-- updateCoefficients (PluginProcessor.cpp 271-274): the replacement
coefficient values are assigned into the stage's existing coefficient object
(*old = *replacements); the stage's delay-register state is not touched. -/
def updateCoefficients {C S : Type} (f : Filter C S) (replacements : C) : Filter C S :=
  { f with coefficients := replacements }

/-- CutFilter: the four cascaded second-order sections of a low-cut or
high-cut band, with a per-section bypass flag, mirroring the unrolled
get<0>()..get<3>() / isBypassed<0>()..isBypassed<3>() accesses of the code. -/
structure CutFilter (C S : Type) where
  s0 : Filter C S
  s1 : Filter C S
  s2 : Filter C S
  s3 : Filter C S
  b0 : Bool
  b1 : Bool
  b2 : Bool
  b3 : Bool
  deriving DecidableEq

/-- MonoChain: the processing chain of one channel, ordered LowCut → Peak →
HighCut, with a bypass flag per band. -/
structure MonoChain (C S : Type) where
  lowCut : CutFilter C S
  peak : Filter C S
  highCut : CutFilter C S
  lowCutBypassed : Bool
  peakBypassed : Bool
  highCutBypassed : Bool
  deriving DecidableEq

/-- Modelled from the spec: updateCutFilter is defined in the missing header
PluginProcessor.h.  Per the spec, the slope choice k activates the first k+1
of the four cascaded sections of the band: each active section receives its
freshly designed coefficients through updateCoefficients (delay state kept),
sections beyond the order are left bypassed so they contribute unity gain. -/
def updateCutFilter {C S : Type} (cut : CutFilter C S) (c0 c1 c2 c3 : C) (slope : ℕ) :
    CutFilter C S :=
  { s0 := updateCoefficients cut.s0 c0
    s1 := if 1 ≤ slope then updateCoefficients cut.s1 c1 else cut.s1
    s2 := if 2 ≤ slope then updateCoefficients cut.s2 c2 else cut.s2
    s3 := if 3 ≤ slope then updateCoefficients cut.s3 c3 else cut.s3
    b0 := false
    b1 := decide (slope < 1)
    b2 := decide (slope < 2)
    b3 := decide (slope < 3) }

/-- The three coefficient design functions.  makePeakFilter
(PluginProcessor.cpp 252-258) wraps the external JUCE peaking-biquad
designer; makeLowCutFilter and makeHighCutFilter are declared in the missing
header and wrap the external Butterworth designers.  All three are therefore
abstract parameters: a design maps a settings snapshot and a sample rate to
coefficient objects (four per cut band, one per section). -/
structure FilterDesign (C : Type) where
  makePeak : ChainSettings → ℚ → C
  makeLowCut : ChainSettings → ℚ → C × C × C × C
  makeHighCut : ChainSettings → ℚ → C × C × C × C

/-- The two channel chains owned by the processor. -/
structure ProcessorChains (C S : Type) where
  leftChain : MonoChain C S
  rightChain : MonoChain C S
  deriving DecidableEq

/-- updatePeakFilter (PluginProcessor.cpp 260-269): set the Peak bypass flag
of both chains from the settings, design the peak coefficients once, and
assign them into both chains through updateCoefficients. -/
def updatePeakFilter {C S : Type} (d : FilterDesign C) (s : ChainSettings) (sampleRate : ℚ)
    (pc : ProcessorChains C S) : ProcessorChains C S :=
  let peakCoefficients := d.makePeak s sampleRate
  { leftChain := { pc.leftChain with
      peakBypassed := s.peakBypassed
      peak := updateCoefficients pc.leftChain.peak peakCoefficients }
    rightChain := { pc.rightChain with
      peakBypassed := s.peakBypassed
      peak := updateCoefficients pc.rightChain.peak peakCoefficients } }

/-- updateLowCutFilters (PluginProcessor.cpp 276-292): set the LowCut bypass
flag of both chains, design the low-cut coefficients once and apply them to
both chains through updateCutFilter at the current slope. -/
def updateLowCutFilters {C S : Type} (d : FilterDesign C) (s : ChainSettings) (sampleRate : ℚ)
    (pc : ProcessorChains C S) : ProcessorChains C S :=
  let lowCutCoefficients := d.makeLowCut s sampleRate
  { leftChain := { pc.leftChain with
      lowCutBypassed := s.lowCutBypassed
      lowCut := updateCutFilter pc.leftChain.lowCut lowCutCoefficients.1
        lowCutCoefficients.2.1 lowCutCoefficients.2.2.1 lowCutCoefficients.2.2.2 s.lowCutSlope }
    rightChain := { pc.rightChain with
      lowCutBypassed := s.lowCutBypassed
      lowCut := updateCutFilter pc.rightChain.lowCut lowCutCoefficients.1
        lowCutCoefficients.2.1 lowCutCoefficients.2.2.1 lowCutCoefficients.2.2.2 s.lowCutSlope } }

/-- updateHighCutFilter (PluginProcessor.cpp 294-310): the HighCut analogue of
updateLowCutFilters. -/
def updateHighCutFilter {C S : Type} (d : FilterDesign C) (s : ChainSettings) (sampleRate : ℚ)
    (pc : ProcessorChains C S) : ProcessorChains C S :=
  let highCutCoefficients := d.makeHighCut s sampleRate
  { leftChain := { pc.leftChain with
      highCutBypassed := s.highCutBypassed
      highCut := updateCutFilter pc.leftChain.highCut highCutCoefficients.1
        highCutCoefficients.2.1 highCutCoefficients.2.2.1 highCutCoefficients.2.2.2 s.highCutSlope }
    rightChain := { pc.rightChain with
      highCutBypassed := s.highCutBypassed
      highCut := updateCutFilter pc.rightChain.highCut highCutCoefficients.1
        highCutCoefficients.2.1 highCutCoefficients.2.2.1 highCutCoefficients.2.2.2 s.highCutSlope } }

/-- updateFilters (PluginProcessor.cpp 312-318): re-read the settings from the
parameter store and update the low-cut, peak and high-cut stages of both
chains, in that order. -/
def updateFilters {C S : Type} (d : FilterDesign C) (apvts : ChainSettings) (sampleRate : ℚ)
    (pc : ProcessorChains C S) : ProcessorChains C S :=
  let chainSettigns := getChainSettings apvts
  updateHighCutFilter d chainSettigns sampleRate
    (updatePeakFilter d chainSettigns sampleRate
      (updateLowCutFilters d chainSettigns sampleRate pc))

/-- Modelled from the spec: Fifo lives in the missing header
PluginProcessor.h.  A fixed-capacity single-producer single-consumer queue:
push copies the item into the next slot and reports false (item dropped)
when the queue is full; pull takes the oldest unread item. -/
structure Fifo (T : Type) where
  capacity : ℕ
  items : List T
  deriving DecidableEq

/-- Push onto a Fifo: rejected (item dropped, queue unchanged) when full. -/
def Fifo.push {T : Type} (q : Fifo T) (item : T) : Fifo T × Bool :=
  if q.items.length < q.capacity then ({ q with items := q.items ++ [item] }, true)
  else (q, false)

/-- Pull the oldest unread item from a Fifo, reporting none when empty. -/
def Fifo.pull {T : Type} (q : Fifo T) : Fifo T × Option T :=
  match q.items with
  | [] => (q, none)
  | x :: xs => ({ q with items := xs }, some x)

/-- Number of queued items available for reading. -/
def Fifo.getNumAvailableForReading {T : Type} (q : Fifo T) : ℕ := q.items.length

/-- Modelled from the spec: SingleChannelSampleFifo lives in the missing
header PluginProcessor.h.  Per spec it accumulates its channel's incoming
samples into fixed-size buffers (the prepared size) and pushes each completed
buffer into an SPSC queue of audio buffers. -/
structure SingleChannelSampleFifo where
  bufferSize : ℕ
  pending : List ℚ
  audioBufferFifo : Fifo (List ℚ)
  deriving DecidableEq

/-- Modelled from the spec: one sample is appended to the pending buffer; a
completed buffer of the prepared size is pushed into the queue (dropped when
the queue is full) and accumulation restarts. -/
def SingleChannelSampleFifo.pushNextSample (scsf : SingleChannelSampleFifo) (x : ℚ) :
    SingleChannelSampleFifo :=
  let pending := scsf.pending ++ [x]
  if scsf.bufferSize ≤ pending.length then
    { scsf with pending := [], audioBufferFifo := (scsf.audioBufferFifo.push pending).1 }
  else
    { scsf with pending := pending }

/-- Modelled from the spec: update(buffer) feeds every sample of the fifo's
channel of the block into the collector, in order. -/
def SingleChannelSampleFifo.update (scsf : SingleChannelSampleFifo) (channelSamples : List ℚ) :
    SingleChannelSampleFifo :=
  channelSamples.foldl SingleChannelSampleFifo.pushNextSample scsf

/-- Run one filter stage over a block sample-by-sample, threading the delay
state and replacing the block in place.  The biquad sample recurrence is the
external parameter bq, mapping coefficients, state and input sample to the
new state and the output sample. -/
def processStage {C S : Type} (bq : C → S → ℚ → S × ℚ) (f : Filter C S) (block : List ℚ) :
    Filter C S × List ℚ :=
  match block with
  | [] => (f, [])
  | x :: xs =>
    let r := bq f.coefficients f.state x
    let rest := processStage bq { f with state := r.1 } xs
    (rest.1, r.2 :: rest.2)

/-- Run a cut band over a block: each of the four sections runs in order,
a section whose bypass flag is set is skipped (its state and the block are
left as they are), exactly as juce::dsp::ProcessorChain does. -/
def processCutFilter {C S : Type} (bq : C → S → ℚ → S × ℚ) (cf : CutFilter C S)
    (block : List ℚ) : CutFilter C S × List ℚ :=
  let r0 := if cf.b0 then (cf.s0, block) else processStage bq cf.s0 block
  let r1 := if cf.b1 then (cf.s1, r0.2) else processStage bq cf.s1 r0.2
  let r2 := if cf.b2 then (cf.s2, r1.2) else processStage bq cf.s2 r1.2
  let r3 := if cf.b3 then (cf.s3, r2.2) else processStage bq cf.s3 r2.2
  ({ cf with s0 := r0.1, s1 := r1.1, s2 := r2.1, s3 := r3.1 }, r3.2)

/-- Run one channel chain over a block: LowCut band, Peak stage, HighCut band
in fixed order, each skipped when its band bypass flag is set. -/
def processMonoChain {C S : Type} (bq : C → S → ℚ → S × ℚ) (ch : MonoChain C S)
    (block : List ℚ) : MonoChain C S × List ℚ :=
  let low := if ch.lowCutBypassed then (ch.lowCut, block) else processCutFilter bq ch.lowCut block
  let pk := if ch.peakBypassed then (ch.peak, low.2) else processStage bq ch.peak low.2
  let high := if ch.highCutBypassed then (ch.highCut, pk.2)
    else processCutFilter bq ch.highCut pk.2
  ({ ch with lowCut := low.1, peak := pk.1, highCut := high.1 }, high.2)

/-- The processor state the embedded methods touch: the parameter store
snapshot, the sample rate, both channel chains and both sample collectors. -/
structure ProcessorState (C S : Type) where
  apvts : ChainSettings
  sampleRate : ℚ
  chains : ProcessorChains C S
  leftChannelFifo : SingleChannelSampleFifo
  rightChannelFifo : SingleChannelSampleFifo
  deriving DecidableEq

/-- processBlock (PluginProcessor.cpp 160-193): update the filters from the
current settings, build single-channel blocks for channel 0 and channel 1 of
the buffer (none models the failing precondition when the buffer has fewer
than two channels), run each chain over its channel in place, then feed the
processed buffer to both sample collectors (the left one reads channel 0, the
right one channel 1).  The buffer is the list of its channels. -/
def processBlock {C S : Type} (d : FilterDesign C) (bq : C → S → ℚ → S × ℚ)
    (st : ProcessorState C S) (buffer : List (List ℚ)) :
    Option (ProcessorState C S × List (List ℚ)) :=
  match buffer with
  | ch0 :: ch1 :: rest =>
    let chains := updateFilters d st.apvts st.sampleRate st.chains
    let left := processMonoChain bq chains.leftChain ch0
    let right := processMonoChain bq chains.rightChain ch1
    some ({ st with
        chains := { leftChain := left.1, rightChain := right.1 }
        leftChannelFifo := st.leftChannelFifo.update left.2
        rightChannelFifo := st.rightChannelFifo.update right.2 },
      left.2 :: right.2 :: rest)
  | _ => none

/-- The main-bus channel sets isBusesLayoutSupported distinguishes. -/
inductive ChannelSet where
  | mono
  | stereo
  | other
  deriving DecidableEq

/-- isBusesLayoutSupported (PluginProcessor.cpp 135-158): the main output set
must be mono or stereo, and the main input set must match the main output
set. -/
def isBusesLayoutSupported (mainIn mainOut : ChannelSet) : Bool :=
  if mainOut ≠ ChannelSet.mono ∧ mainOut ≠ ChannelSet.stereo then false
  else if mainOut ≠ mainIn then false
  else true

/-- setStateInformation (PluginProcessor.cpp 220-232): parse the supplied
bytes into a value tree (external juce::ValueTree::readFromData, an abstract
parameter returning none on an invalid tree, modelled as the parameter
snapshot the tree encodes); only when the tree is valid is the parameter
state replaced and the filters recomputed from it. -/
def setStateInformation {C S : Type} (d : FilterDesign C)
    (readFromData : List ℕ → Option ChainSettings) (st : ProcessorState C S)
    (data : List ℕ) : ProcessorState C S :=
  match readFromData data with
  | some tree =>
    { st with apvts := tree, chains := updateFilters d tree st.sampleRate st.chains }
  | none => st

/-- The delay-register states of the nine stages of a chain, in chain order. -/
def chainStates {C S : Type} (ch : MonoChain C S) : List S :=
  [ch.lowCut.s0.state, ch.lowCut.s1.state, ch.lowCut.s2.state, ch.lowCut.s3.state,
   ch.peak.state,
   ch.highCut.s0.state, ch.highCut.s1.state, ch.highCut.s2.state, ch.highCut.s3.state]

/-- The coefficient objects of the nine stages of a chain, in chain order. -/
def chainCoefficients {C S : Type} (ch : MonoChain C S) : List C :=
  [ch.lowCut.s0.coefficients, ch.lowCut.s1.coefficients, ch.lowCut.s2.coefficients,
   ch.lowCut.s3.coefficients,
   ch.peak.coefficients,
   ch.highCut.s0.coefficients, ch.highCut.s1.coefficients, ch.highCut.s2.coefficients,
   ch.highCut.s3.coefficients]

/-- FFTDataGenerator (PluginEditor.h 21-83): holds the FFT order, the working
data vector (sized 2·fftSize by changeOrder) and the queue of produced
frames. -/
structure FFTDataGenerator where
  order : ℕ
  fftData : List ℚ
  fftDataFifo : Fifo (List ℚ)
  deriving DecidableEq

/-- getFFTSize (PluginEditor.h 73): 1 <<< order. -/
def FFTDataGenerator.getFFTSize (g : FFTDataGenerator) : ℕ := 2 ^ g.order

/-- Apply a function to the first n entries of a list, keeping the rest:
the shape of the two normalisation loops over bins 0..numBins-1. -/
def mapFirst (n : ℕ) (f : ℚ → ℚ) (xs : List ℚ) : List ℚ :=
  (xs.take n).map f ++ xs.drop n

/-- juce::dsp::WindowingFunction::multiplyWithWindowingTable applied to the
first fftSize entries: pointwise product with the window table. -/
def multiplyWithWindowingTable (window : List ℚ) (xs : List ℚ) (fftSize : ℕ) : List ℚ :=
  List.zipWith (fun a b => a * b) (xs.take fftSize) (window.take fftSize) ++ xs.drop fftSize

/-- produceFFTDataForRendering (PluginEditor.h 27-56): zero the working
vector, copy the first fftSize samples of channel 0 into it, window it, run
the external magnitude-only forward transform (abstract parameter fft),
divide each of the first numBins = fftSize/2 bins by numBins, convert those
bins to decibels with the given floor, and push the frame into the frame
queue. -/
def FFTDataGenerator.produceFFTDataForRendering (g : FFTDataGenerator) (rf : RealFuns)
    (fft : List ℚ → List ℚ) (window : List ℚ) (audioData : List ℚ)
    (negativeInfinity : ℚ) : FFTDataGenerator :=
  let fftSize := g.getFFTSize
  let data0 := audioData.take fftSize ++ List.replicate (g.fftData.length - fftSize) 0
  let windowed := multiplyWithWindowingTable window data0 fftSize
  let transformed := fft windowed
  let numBins := fftSize / 2
  let normalized := mapFirst numBins (fun v => v / (numBins : ℚ)) transformed
  let inDb := mapFirst numBins (fun v => gainToDecibels rf v negativeInfinity) normalized
  { g with fftData := inDb, fftDataFifo := (g.fftDataFifo.push inDb).1 }

/-- Number of produced FFT frames waiting in the frame queue. -/
def FFTDataGenerator.getNumAvailableFFTDataBlocks (g : FFTDataGenerator) : ℕ :=
  g.fftDataFifo.getNumAvailableForReading

/-- A rendered path: the ordered points the code emits.  The x coordinate is
a number; the y coordinate is Option ℚ because the unchecked starting point
may carry a non-finite float. -/
def PathPoints : Type := List (ℚ × Option ℚ)

instance : DecidableEq PathPoints := by
  unfold PathPoints
  infer_instance

/-- Loop of generatePath (PluginEditor.h 121-134): starting at binNum = 1 and
stepping by pathResolution = 2, map the bin's value to a y coordinate (the
affine display map; none models a NaN or infinite float, which the isnan /
isinf guard skips); for a finite y the bin frequency binNum·binWidth is
mapped through the log10 frequency axis from 20 Hz to 20 kHz, scaled by the
width and floored to the pixel column of the emitted point.  The value type
V and the finiteness view toF keep the float model abstract. -/
def pathLoop {V : Type} (toF : V → Option ℚ) (rf : RealFuns) (renderData : List V)
    (negativeInfinity bottom top width binWidth : ℚ) (numBins binNum : ℕ) : PathPoints :=
  if _h : binNum < numBins then
    let rest := pathLoop toF rf renderData negativeInfinity bottom top width binWidth
      numBins (binNum + 2)
    match ((renderData.get? binNum).bind toF).map
        (fun v => jmap v negativeInfinity 0 bottom top) with
    | some y =>
      let binFreq := (binNum : ℚ) * binWidth
      let normalizedBinX := mapFromLog10 rf binFreq 20 20000
      ((((⌊normalizedBinX * width⌋ : ℤ) : ℚ)), some y) :: rest
    | none => rest
  else []
termination_by numBins - binNum
decreasing_by omega

/-- Body of generatePath (PluginEditor.h 91-136): the path starts at x = 0
with the (unchecked) mapped value of bin 0, then the loop adds one point per
visited finite-valued bin.  bottom is fftBounds.getHeight() exactly as the
code reads it. -/
def buildPath {V : Type} (toF : V → Option ℚ) (rf : RealFuns) (renderData : List V)
    (top bottom width : ℚ) (fftSize : ℕ) (binWidth negativeInfinity : ℚ) : PathPoints :=
  ((0 : ℚ),
    ((renderData.get? 0).bind toF).map (fun v => jmap v negativeInfinity 0 bottom top)) ::
  pathLoop toF rf renderData negativeInfinity bottom top width binWidth (fftSize / 2) 1

/-- AnalyserPathGenerator (PluginEditor.h 85-150): owns the queue of
generated paths. -/
structure AnalyserPathGenerator where
  pathFifo : Fifo PathPoints
  deriving DecidableEq

/-- generatePath (PluginEditor.h 91-136): build the path and push it into the
path queue. -/
def AnalyserPathGenerator.generatePath {V : Type} (g : AnalyserPathGenerator)
    (toF : V → Option ℚ) (rf : RealFuns) (renderData : List V) (top bottom width : ℚ)
    (fftSize : ℕ) (binWidth negativeInfinity : ℚ) : AnalyserPathGenerator :=
  { pathFifo :=
      (g.pathFifo.push (buildPath toF rf renderData top bottom width fftSize binWidth
        negativeInfinity)).1 }

/-- getNumPathsAvailable (PluginEditor.h 138-141). -/
def AnalyserPathGenerator.getNumPathsAvailable (g : AnalyserPathGenerator) : ℕ :=
  g.pathFifo.getNumAvailableForReading

/-- Third loop of PathProducer::process (PluginEditor.cpp 356-359): while
paths are available, pull each into the consumer-visible path, so the queue
empties and the last queued path wins. -/
def drainPaths {P : Type} (fifoItems : List P) (current : P) : List P × P :=
  match fifoItems with
  | [] => ([], current)
  | p :: rest => drainPaths rest p

/-- PathProducer (PluginEditor.h 201-222): the sliding mono buffer, the FFT
data generator, the path generator and the consumer-visible path.  The
SingleChannelSampleFifo it drains belongs to the processor and is passed to
process explicitly. -/
structure PathProducer where
  monoBuffer : List ℚ
  leftChannelFFTDataGenerator : FFTDataGenerator
  pathProducer : AnalyserPathGenerator
  leftChannelFFTPath : PathPoints
  deriving DecidableEq

/-- First loop step of PathProducer::process (PluginEditor.cpp 315-331): the
mono buffer is shifted left by the incoming block's length and the block is
appended at the end (the two FloatVectorOperations::copy calls). -/
def shiftAppend (monoBuffer incoming : List ℚ) : List ℚ :=
  monoBuffer.drop incoming.length ++ incoming

/-- PathProducer::process (PluginEditor.cpp 311-360).  Loop one drains every
complete audio buffer from the sample queue, shifts it into the mono buffer
and produces FFT data with a −48 dB floor.  Loop two drains every FFT frame
and generates one path per frame over the log frequency axis, with binWidth
= sampleRate / fftSize.  Loop three drains the path queue keeping the most
recent path as the consumer-visible one. -/
def PathProducer.process (pp : PathProducer) (rf : RealFuns) (fft : List ℚ → List ℚ)
    (window : List ℚ) (top bottom width sampleRate : ℚ)
    (scsf : SingleChannelSampleFifo) : SingleChannelSampleFifo × PathProducer :=
  let step1 := scsf.audioBufferFifo.items.foldl
    (fun (acc : List ℚ × FFTDataGenerator) tempIncomingBuffer =>
      let mb := shiftAppend acc.1 tempIncomingBuffer
      (mb, acc.2.produceFFTDataForRendering rf fft window mb (-48)))
    (pp.monoBuffer, pp.leftChannelFFTDataGenerator)
  let scsf2 : SingleChannelSampleFifo :=
    { scsf with audioBufferFifo := { scsf.audioBufferFifo with items := [] } }
  let fftSize := step1.2.getFFTSize
  let binWidth := sampleRate / (fftSize : ℚ)
  let frames := step1.2.fftDataFifo.items
  let gen2 : FFTDataGenerator :=
    { step1.2 with fftDataFifo := { step1.2.fftDataFifo with items := [] } }
  let pg := frames.foldl
    (fun g fftData =>
      g.generatePath some rf fftData top bottom width fftSize binWidth (-48))
    pp.pathProducer
  let drained := drainPaths pg.pathFifo.items pp.leftChannelFFTPath
  (scsf2,
   { monoBuffer := step1.1
     leftChannelFFTDataGenerator := gen2
     pathProducer := { pathFifo := { pg.pathFifo with items := drained.1 } }
     leftChannelFFTPath := drained.2 })

/-- getPath (PluginEditor.h 210): the consumer-visible path. -/
def PathProducer.getPath (pp : PathProducer) : PathPoints := pp.leftChannelFFTPath

/-- ResponseCurveComponent state (PluginEditor.h 224-263): the atomic dirty
flag, the editor's own response-curve chain, the analysis-enable flag and the
two path producers. -/
structure ResponseCurveComponent (C S : Type) where
  parametersChanged : Bool
  monoChain : MonoChain C S
  shouldShowFFTAnalysis : Bool
  leftPathProducer : PathProducer
  rightPathProducer : PathProducer

/-- parameterValueChanged (PluginEditor.cpp 306-309): the listener sets the
dirty flag. -/
def parameterValueChanged {C S : Type} (rc : ResponseCurveComponent C S) :
    ResponseCurveComponent C S :=
  { rc with parametersChanged := true }

/-- updateChain (PluginEditor.cpp 381-401): read the settings, set the three
band bypass flags of the response-curve chain, then assign freshly designed
peak, low-cut and high-cut coefficients into it. -/
def updateChain {C S : Type} (d : FilterDesign C) (apvts : ChainSettings) (sampleRate : ℚ)
    (mc : MonoChain C S) : MonoChain C S :=
  let chainSettings := getChainSettings apvts
  let mc1 := { mc with
    lowCutBypassed := chainSettings.lowCutBypassed
    peakBypassed := chainSettings.peakBypassed
    highCutBypassed := chainSettings.highCutBypassed }
  let peakCoefficients := d.makePeak chainSettings sampleRate
  let mc2 := { mc1 with peak := updateCoefficients mc1.peak peakCoefficients }
  let lowCutCoefficients := d.makeLowCut chainSettings sampleRate
  let mc3 := { mc2 with lowCut := (updateCutFilter mc2.lowCut lowCutCoefficients.1
    lowCutCoefficients.2.1 lowCutCoefficients.2.2.1 lowCutCoefficients.2.2.2
    chainSettings.lowCutSlope) }
  let highCutCoefficients := d.makeHighCut chainSettings sampleRate
  { mc3 with highCut := (updateCutFilter mc3.highCut highCutCoefficients.1
    highCutCoefficients.2.1 highCutCoefficients.2.2.1 highCutCoefficients.2.2.2
    chainSettings.highCutSlope) }

/-- timerCallback (PluginEditor.cpp 362-379): when the analysis-enable flag
is set, run both path producers over the processor's sample queues; then
compare-and-set the dirty flag from true to false, updating the
response-curve chain exactly when that succeeds. -/
def timerCallback {C S : Type} (d : FilterDesign C) (rf : RealFuns)
    (fft : List ℚ → List ℚ) (window : List ℚ) (top bottom width : ℚ)
    (proc : ProcessorState C S) (rc : ResponseCurveComponent C S) :
    ProcessorState C S × ResponseCurveComponent C S :=
  let fftStep :=
    if rc.shouldShowFFTAnalysis then
      let l := rc.leftPathProducer.process rf fft window top bottom width
        proc.sampleRate proc.leftChannelFifo
      let r := rc.rightPathProducer.process rf fft window top bottom width
        proc.sampleRate proc.rightChannelFifo
      ((l.1, r.1), l.2, r.2)
    else
      ((proc.leftChannelFifo, proc.rightChannelFifo), rc.leftPathProducer, rc.rightPathProducer)
  let casSucceeded := rc.parametersChanged
  ({ proc with leftChannelFifo := fftStep.1.1, rightChannelFifo := fftStep.1.2 },
   { rc with
     parametersChanged := if casSucceeded then false else rc.parametersChanged
     monoChain := if casSucceeded then updateChain d proc.apvts proc.sampleRate rc.monoChain
       else rc.monoChain
     leftPathProducer := fftStep.2.1
     rightPathProducer := fftStep.2.2 })

/-- Events reaching the response-curve component: a parameter-change
notification or one 60 Hz timer tick. -/
inductive EditorEvent where
  | paramChange
  | tick
  deriving DecidableEq

/-- Run a sequence of editor events over the paired processor and component
states: a notification only sets the dirty flag, a tick runs timerCallback. -/
def runEvents {C S : Type} (d : FilterDesign C) (rf : RealFuns) (fft : List ℚ → List ℚ)
    (window : List ℚ) (top bottom width : ℚ) :
    List EditorEvent → ProcessorState C S × ResponseCurveComponent C S →
    ProcessorState C S × ResponseCurveComponent C S
  | [], st => st
  | EditorEvent.paramChange :: rest, st =>
    runEvents d rf fft window top bottom width rest (st.1, parameterValueChanged st.2)
  | EditorEvent.tick :: rest, st =>
    runEvents d rf fft window top bottom width rest
      (timerCallback d rf fft window top bottom width st.1 st.2)

/-- Sequential multiplication of one cut band inside the paint loop
(PluginEditor.cpp 450-473): one conditional multiply per non-bypassed
section, in order, starting from the running magnitude m.  The external
magnitude response of a coefficient object at a frequency and sample rate is
the abstract parameter magAt. -/
def cutBandSeq {C S : Type} (magAt : C → ℚ → ℚ → ℚ) (cf : CutFilter C S)
    (sampleRate freq m : ℚ) : ℚ :=
  let m := if !cf.b0 then m * magAt cf.s0.coefficients freq sampleRate else m
  let m := if !cf.b1 then m * magAt cf.s1.coefficients freq sampleRate else m
  let m := if !cf.b2 then m * magAt cf.s2.coefficients freq sampleRate else m
  if !cf.b3 then m * magAt cf.s3.coefficients freq sampleRate else m

/-- Magnitude accumulation of one pixel column of the paint loop
(PluginEditor.cpp 440-474): start from 1, multiply in the peak stage when the
Peak band is not bypassed, then each non-bypassed section of the LowCut band
when that band is not bypassed, then likewise the HighCut band. -/
def chainMagnitude {C S : Type} (magAt : C → ℚ → ℚ → ℚ) (ch : MonoChain C S)
    (sampleRate freq : ℚ) : ℚ :=
  let mag : ℚ := 1
  let mag := if !ch.peakBypassed then mag * magAt ch.peak.coefficients freq sampleRate else mag
  let mag := if !ch.lowCutBypassed then cutBandSeq magAt ch.lowCut sampleRate freq mag else mag
  if !ch.highCutBypassed then cutBandSeq magAt ch.highCut sampleRate freq mag else mag

/-- The mags vector computed by ResponseCurveComponent::paint
(PluginEditor.cpp 437-475): for each pixel column i of the w-wide response
area, the chain magnitude at frequency mapToLog10(i/w, 20, 20000), converted
to decibels (default −100 dB floor of juce::Decibels::gainToDecibels). -/
def paintMags {C S : Type} (rf : RealFuns) (magAt : C → ℚ → ℚ → ℚ) (ch : MonoChain C S)
    (sampleRate : ℚ) (w : ℕ) : List ℚ :=
  (List.range w).map (fun i =>
    gainToDecibels rf
      (chainMagnitude magAt ch sampleRate (mapToLog10 rf ((i : ℚ) / (w : ℚ)) 20 20000))
      (-100))

/-- Vertical mapping of the paint function (PluginEditor.cpp 477-491): each
dB magnitude is sent through jmap from the range −24..24 onto the pixel
bounds outputMin (the response area's bottom) to outputMax (its top). -/
def responseCurveYs (mags : List ℚ) (outputMin outputMax : ℚ) : List ℚ :=
  mags.map (fun m => jmap m (-24) 24 outputMin outputMax)

/-- Statement (from the claim wording): the product of the magnitude
responses of the non-bypassed sections of one cut band, a bypassed section
contributing exactly 1. -/
def cutBandProduct {C S : Type} (magAt : C → ℚ → ℚ → ℚ) (cf : CutFilter C S)
    (sampleRate freq : ℚ) : ℚ :=
  (if cf.b0 then 1 else magAt cf.s0.coefficients freq sampleRate) *
  (if cf.b1 then 1 else magAt cf.s1.coefficients freq sampleRate) *
  (if cf.b2 then 1 else magAt cf.s2.coefficients freq sampleRate) *
  (if cf.b3 then 1 else magAt cf.s3.coefficients freq sampleRate)

/-- Statement (from the claim wording): the product over every non-bypassed
stage of the chain, a bypassed stage or band contributing exactly unity. -/
def specStageProduct {C S : Type} (magAt : C → ℚ → ℚ → ℚ) (ch : MonoChain C S)
    (sampleRate freq : ℚ) : ℚ :=
  (if ch.peakBypassed then 1 else magAt ch.peak.coefficients freq sampleRate) *
  (if ch.lowCutBypassed then 1 else cutBandProduct magAt ch.lowCut sampleRate freq) *
  (if ch.highCutBypassed then 1 else cutBandProduct magAt ch.highCut sampleRate freq)

/-- Statement (from the claim wording): the bins the path-generation loop
visits, starting at bin 1 with a fixed stride of 2. -/
def strideBins (numBins : ℕ) : List ℕ :=
  (List.range (numBins / 2)).map (fun k => 1 + 2 * k)

/-- Statement (from the claim wording): the loop points of the generated
path, one per visited bin whose mapped value is finite, at the log-mapped
floored x coordinate of the bin's frequency. -/
def specPathPoints {V : Type} (toF : V → Option ℚ) (rf : RealFuns) (renderData : List V)
    (negativeInfinity bottom top width binWidth : ℚ) (numBins : ℕ) : PathPoints :=
  (strideBins numBins).filterMap (fun binNum =>
    match ((renderData.get? binNum).bind toF).map
        (fun v => jmap v negativeInfinity 0 bottom top) with
    | some y =>
      some ((((⌊mapFromLog10 rf ((binNum : ℚ) * binWidth) 20 20000 * width⌋ : ℤ) : ℚ)), some y)
    | none => none)

/-- Statement (from the claim wording): a cut band's coefficients are those
freshly derived from the settings, sections up to the slope active with the
designed coefficients, sections beyond the slope bypassed. -/
def cutDerivedFrom {C S : Type} (cut : CutFilter C S) (c0 c1 c2 c3 : C) (slope : ℕ) : Prop :=
  cut.s0.coefficients = c0 ∧ cut.b0 = false ∧
  (1 ≤ slope → cut.s1.coefficients = c1) ∧ cut.b1 = decide (slope < 1) ∧
  (2 ≤ slope → cut.s2.coefficients = c2) ∧ cut.b2 = decide (slope < 2) ∧
  (3 ≤ slope → cut.s3.coefficients = c3) ∧ cut.b3 = decide (slope < 3)

/-- Statement (from the claim wording): a chain's coefficients and bypass
flags equal those derived from the given settings snapshot. -/
def chainDerivedFrom {C S : Type} (d : FilterDesign C) (s : ChainSettings) (sampleRate : ℚ)
    (ch : MonoChain C S) : Prop :=
  ch.peak.coefficients = d.makePeak s sampleRate ∧
  ch.peakBypassed = s.peakBypassed ∧
  ch.lowCutBypassed = s.lowCutBypassed ∧
  ch.highCutBypassed = s.highCutBypassed ∧
  cutDerivedFrom ch.lowCut (d.makeLowCut s sampleRate).1 (d.makeLowCut s sampleRate).2.1
    (d.makeLowCut s sampleRate).2.2.1 (d.makeLowCut s sampleRate).2.2.2 s.lowCutSlope ∧
  cutDerivedFrom ch.highCut (d.makeHighCut s sampleRate).1 (d.makeHighCut s sampleRate).2.1
    (d.makeHighCut s sampleRate).2.2.1 (d.makeHighCut s sampleRate).2.2.2 s.highCutSlope

/-- Configuration view of one cut band: the coefficient object and bypass
flag of each section, everything except the delay states. -/
def cutConfig {C S : Type} (cf : CutFilter C S) :
    (C × Bool) × (C × Bool) × (C × Bool) × (C × Bool) :=
  ((cf.s0.coefficients, cf.b0), (cf.s1.coefficients, cf.b1),
   (cf.s2.coefficients, cf.b2), (cf.s3.coefficients, cf.b3))

/-- Configuration view of one chain: every coefficient object and every
bypass flag, everything except the delay states. -/
def chainConfig {C S : Type} (ch : MonoChain C S) :
    C × Bool × Bool × Bool ×
    ((C × Bool) × (C × Bool) × (C × Bool) × (C × Bool)) ×
    ((C × Bool) × (C × Bool) × (C × Bool) × (C × Bool)) :=
  (ch.peak.coefficients, ch.peakBypassed, ch.lowCutBypassed, ch.highCutBypassed,
   cutConfig ch.lowCut, cutConfig ch.highCut)

/-- Concrete settings snapshot used by witness theorems: the default value of
every parameter. -/
def wSettings : ChainSettings := ⟨20, 20000, 750, 0, 1, 0, 0, false, false, false⟩

/-- Concrete trivial filter stage used by witness theorems. -/
def wFilter : Filter Unit Unit := ⟨(), ()⟩

/-- Concrete trivial cut band used by witness theorems. -/
def wCut : CutFilter Unit Unit := ⟨wFilter, wFilter, wFilter, wFilter, false, false, false, false⟩

/-- Concrete trivial chain used by witness theorems. -/
def wChain : MonoChain Unit Unit := ⟨wCut, wFilter, wCut, false, false, false⟩

/-- Concrete trivial coefficient design used by witness theorems. -/
def wDesign : FilterDesign Unit :=
  ⟨fun _ _ => (), fun _ _ => ((), (), (), ()), fun _ _ => ((), (), (), ())⟩

/-- Concrete sample collector used by witness theorems: buffer size one, so
every sample completes a buffer. -/
def wScsf : SingleChannelSampleFifo := ⟨1, [], ⟨30, []⟩⟩

/-- Concrete processor state used by witness theorems. -/
def wProc : ProcessorState Unit Unit := ⟨wSettings, 48000, ⟨wChain, wChain⟩, wScsf, wScsf⟩

/-- Concrete identity biquad recurrence used by witness theorems. -/
def wBq : Unit → Unit → ℚ → Unit × ℚ := fun _ _ x => ((), x)

/-- Concrete stand-ins for the transcendental functions, used by witness
theorems: both constantly zero (so log10 1 = 0 holds). -/
def wRf : RealFuns := ⟨fun _ => 0, fun _ => 0⟩

/-- Concrete FFT data generator used by witness theorems: order 1, working
vector of size 2·fftSize = 4, empty frame queue of capacity 30. -/
def wGen : FFTDataGenerator := ⟨1, [0, 0, 0, 0], ⟨30, []⟩⟩

/-- Concrete path generator used by witness theorems. -/
def wPathGen : AnalyserPathGenerator := ⟨⟨30, []⟩⟩

/-- Concrete path producer used by witness theorems. -/
def wPathProducer : PathProducer := ⟨[0, 0], wGen, wPathGen, []⟩

/-- Concrete response-curve component used by witness theorems: dirty flag
clear and analysis display OFF. -/
def wRcc : ResponseCurveComponent Unit Unit := ⟨false, wChain, false, wPathProducer, wPathProducer⟩

/-!  Helper lemmas shared by the claim theorems. -/

theorem processStage_coefficients {C S : Type} (bq : C → S → ℚ → S × ℚ) (f : Filter C S)
    (blk : List ℚ) : (processStage bq f blk).1.coefficients = f.coefficients := by
  induction blk generalizing f with
  | nil => rfl
  | cons x xs ih => simpa [processStage] using ih _

theorem processCutFilter_config {C S : Type} (bq : C → S → ℚ → S × ℚ) (cf : CutFilter C S)
    (blk : List ℚ) : cutConfig (processCutFilter bq cf blk).1 = cutConfig cf := by
  rcases cf with ⟨s0, s1, s2, s3, b0, b1, b2, b3⟩
  cases b0 <;> cases b1 <;> cases b2 <;> cases b3 <;>
    simp [processCutFilter, cutConfig, processStage_coefficients]

theorem processMonoChain_config {C S : Type} (bq : C → S → ℚ → S × ℚ) (ch : MonoChain C S)
    (blk : List ℚ) : chainConfig (processMonoChain bq ch blk).1 = chainConfig ch := by
  rcases ch with ⟨lc, pk, hc, lb, pb, hb⟩
  cases lb <;> cases pb <;> cases hb <;>
    simp [processMonoChain, chainConfig, processCutFilter_config, processStage_coefficients]

theorem chainDerivedFrom_congr {C S : Type} {d : FilterDesign C} {s : ChainSettings}
    {sr : ℚ} {ch1 ch2 : MonoChain C S} (h : chainConfig ch1 = chainConfig ch2) :
    chainDerivedFrom d s sr ch1 ↔ chainDerivedFrom d s sr ch2 := by
  simp only [chainConfig, cutConfig, Prod.mk.injEq] at h
  obtain ⟨h1, h2, h3, h4, ⟨⟨a0, a0b⟩, ⟨a1, a1b⟩, ⟨a2, a2b⟩, ⟨a3, a3b⟩⟩,
    ⟨⟨c0, c0b⟩, ⟨c1, c1b⟩, ⟨c2, c2b⟩, ⟨c3, c3b⟩⟩⟩ := h
  simp [chainDerivedFrom, cutDerivedFrom, h1, h2, h3, h4,
    a0, a0b, a1, a1b, a2, a2b, a3, a3b, c0, c0b, c1, c1b, c2, c2b, c3, c3b]

theorem updateCutFilter_derived {C S : Type} (cut : CutFilter C S) (c0 c1 c2 c3 : C)
    (slope : ℕ) : cutDerivedFrom (updateCutFilter cut c0 c1 c2 c3 slope) c0 c1 c2 c3 slope := by
  refine ⟨rfl, rfl, ?_, rfl, ?_, rfl, ?_, rfl⟩ <;>
    intro h <;> simp [updateCutFilter, updateCoefficients, h]

theorem updateFilters_derived {C S : Type} (d : FilterDesign C) (apvts : ChainSettings)
    (sr : ℚ) (pc : ProcessorChains C S) :
    chainDerivedFrom d (getChainSettings apvts) sr (updateFilters d apvts sr pc).leftChain ∧
    chainDerivedFrom d (getChainSettings apvts) sr (updateFilters d apvts sr pc).rightChain :=
  ⟨⟨rfl, rfl, rfl, rfl, updateCutFilter_derived _ _ _ _ _ _, updateCutFilter_derived _ _ _ _ _ _⟩,
   ⟨rfl, rfl, rfl, rfl, updateCutFilter_derived _ _ _ _ _ _, updateCutFilter_derived _ _ _ _ _ _⟩⟩

/-!  Claim theorems. -/

/-- C5: replacing a filter stage's coefficients (updateCoefficients assigning
the new coefficient values into the existing coefficient object) changes only
the coefficient values; the stage's delay-register state is never reset by a
coefficient swap — across the processor's per-block updateFilters and across
the editor's updateChain, every stage keeps its state, so filter memory is
preserved across blocks and across settings changes. -/
theorem c5_coefficient_swap_preserves_state :
    ∀ (C S : Type) (f : Filter C S) (c : C) (d : FilterDesign C) (s : ChainSettings)
      (sr : ℚ) (pc : ProcessorChains C S) (mc : MonoChain C S),
      (updateCoefficients f c).state = f.state ∧
      (updateCoefficients f c).coefficients = c ∧
      chainStates (updateFilters d s sr pc).leftChain = chainStates pc.leftChain ∧
      chainStates (updateFilters d s sr pc).rightChain = chainStates pc.rightChain ∧
      chainStates (updateChain d s sr mc) = chainStates mc := by
  intro C S f c d s sr pc mc
  refine ⟨rfl, rfl, ?_, ?_, ?_⟩ <;>
    simp [chainStates, updateFilters, updateHighCutFilter, updatePeakFilter,
      updateLowCutFilters, updateChain, updateCutFilter, updateCoefficients,
      getChainSettings, apply_ite (Filter.state)]

/-- C9: processBlock builds single-channel blocks for channel 0 and channel 1
unconditionally, so it requires at least two channels (the embedding returns
none exactly when the buffer has fewer than two); yet isBusesLayoutSupported
accepts a mono main bus layout, under which that precondition fails. -/
theorem c9_mono_layout_vs_processBlock_channels :
    isBusesLayoutSupported ChannelSet.mono ChannelSet.mono = true ∧
    (∀ (C S : Type) (d : FilterDesign C) (bq : C → S → ℚ → S × ℚ)
      (st : ProcessorState C S) (buffer : List (List ℚ)),
      (processBlock d bq st buffer).isSome = decide (2 ≤ buffer.length)) := by
  refine ⟨rfl, ?_⟩
  intro C S d bq st buffer
  match buffer with
  | [] => rfl
  | [ch0] => rfl
  | ch0 :: ch1 :: rest => simp [processBlock]

/-- C10: setStateInformation is atomic with respect to invalid input: when
the supplied bytes do not parse into a valid tree, the parameter state and
the filter chains are left completely unchanged; when the tree is valid the
state is replaced and the filters are recomputed from it. -/
theorem c10_setState_atomic_on_invalid_input :
    ∀ (C S : Type) (d : FilterDesign C) (readFromData : List ℕ → Option ChainSettings)
      (st : ProcessorState C S) (data : List ℕ),
      (readFromData data = none → setStateInformation d readFromData st data = st) ∧
      (∀ tree, readFromData data = some tree →
        setStateInformation d readFromData st data =
          { st with apvts := tree, chains := updateFilters d tree st.sampleRate st.chains }) := by
  intro C S d readFromData st data
  constructor
  · intro h
    simp [setStateInformation, h]
  · intro tree h
    simp [setStateInformation, h]

/-- Witness for C10: on a parser that rejects the input, the processor state
is returned unchanged. -/
theorem c10_witness :
    ((fun _ => none) ([] : List ℕ) = (none : Option ChainSettings)) ∧
    setStateInformation wDesign (fun _ => none) wProc [] = wProc :=
  ⟨rfl, (c10_setState_atomic_on_invalid_input Unit Unit wDesign (fun _ => none) wProc []).1 rfl⟩

/-- C4: on every processed block the filter settings are re-read and the
low-cut, peak and high-cut coefficients of both channel chains are
recomputed and applied before the block is filtered, unconditionally; after
processBlock returns, the chains' coefficients (and bypass flags) equal
those derived from the settings current at the start of the block. -/
theorem c4_processBlock_recomputes_coefficients :
    ∀ (C S : Type) (d : FilterDesign C) (bq : C → S → ℚ → S × ℚ)
      (st : ProcessorState C S) (buffer : List (List ℚ)) (st2 : ProcessorState C S)
      (out : List (List ℚ)),
      processBlock d bq st buffer = some (st2, out) →
      chainDerivedFrom d (getChainSettings st.apvts) st.sampleRate st2.chains.leftChain ∧
      chainDerivedFrom d (getChainSettings st.apvts) st.sampleRate st2.chains.rightChain := by
  intro C S d bq st buffer st2 out h
  match buffer with
  | [] => exact absurd h (by simp [processBlock])
  | [ch0] => exact absurd h (by simp [processBlock])
  | ch0 :: ch1 :: rest =>
    simp only [processBlock, Option.some.injEq, Prod.mk.injEq] at h
    obtain ⟨h1, h2⟩ := h
    subst h1
    constructor
    · exact (chainDerivedFrom_congr (processMonoChain_config bq _ ch0)).mpr
        (updateFilters_derived d st.apvts st.sampleRate st.chains).1
    · exact (chainDerivedFrom_congr (processMonoChain_config bq _ ch1)).mpr
        (updateFilters_derived d st.apvts st.sampleRate st.chains).2

/-- Witness for C4: a concrete two-channel block through the concrete
processor leaves both chains with the freshly derived configuration. -/
theorem c4_witness :
    (processBlock wDesign wBq wProc [[], []] =
      some ({ wProc with chains := updateFilters wDesign wSettings 48000 wProc.chains },
        [[], []])) ∧
    chainDerivedFrom wDesign (getChainSettings wProc.apvts) wProc.sampleRate
      ({ wProc with chains := updateFilters wDesign wSettings 48000 wProc.chains }
        : ProcessorState Unit Unit).chains.leftChain :=
  ⟨by decide,
   (c4_processBlock_recomputes_coefficients Unit Unit wDesign wBq wProc [[], []]
      { wProc with chains := updateFilters wDesign wSettings 48000 wProc.chains }
      [[], []] (by decide)).1⟩

/-- Helper: over a trace of ticks only, starting with a clear dirty flag, the
response-curve chain is never recomputed and the flag stays clear. -/
theorem runEvents_ticks_only {C S : Type} (d : FilterDesign C) (rf : RealFuns)
    (fft : List ℚ → List ℚ) (window : List ℚ) (top bottom width : ℚ) :
    ∀ (evs : List EditorEvent) (proc : ProcessorState C S)
      (rc : ResponseCurveComponent C S),
      rc.parametersChanged = false → (∀ e ∈ evs, e = EditorEvent.tick) →
      (runEvents d rf fft window top bottom width evs (proc, rc)).2.monoChain = rc.monoChain ∧
      (runEvents d rf fft window top bottom width evs (proc, rc)).2.parametersChanged = false := by
  intro evs
  induction evs with
  | nil =>
    intro proc rc h0 _
    exact ⟨rfl, h0⟩
  | cons e rest ih =>
    intro proc rc h0 hall
    have he : e = EditorEvent.tick := hall e (List.mem_cons_self e rest)
    subst he
    have hflag : (timerCallback d rf fft window top bottom width proc rc).2.parametersChanged
        = false := by
      simp [timerCallback, h0]
    have hmono : (timerCallback d rf fft window top bottom width proc rc).2.monoChain
        = rc.monoChain := by
      simp [timerCallback, h0]
    have hall2 : ∀ e ∈ rest, e = EditorEvent.tick := fun e he2 =>
      hall e (List.mem_cons_of_mem _ he2)
    have ihh := ih (timerCallback d rf fft window top bottom width proc rc).1
      (timerCallback d rf fft window top bottom width proc rc).2 hflag hall2
    exact ⟨ihh.1.trans hmono, ihh.2⟩

/-- C3: the response-curve chain is recomputed only when a parameter changed
since the last tick: the dirty flag is checked by a compare-and-clear on each
tick, updateChain runs exactly when the check succeeds and the flag is clear
afterwards; over a trace of ticks with no change notification the chain is
never recomputed, and a change notification followed by a tick recomputes
it. -/
theorem c3_dirty_flag_compare_and_clear :
    ∀ (C S : Type) (d : FilterDesign C) (rf : RealFuns) (fft : List ℚ → List ℚ)
      (window : List ℚ) (top bottom width : ℚ) (proc : ProcessorState C S)
      (rc : ResponseCurveComponent C S) (evs : List EditorEvent),
      ((timerCallback d rf fft window top bottom width proc rc).2.monoChain =
        if rc.parametersChanged then updateChain d proc.apvts proc.sampleRate rc.monoChain
        else rc.monoChain) ∧
      ((timerCallback d rf fft window top bottom width proc rc).2.parametersChanged = false) ∧
      ((parameterValueChanged rc).parametersChanged = true) ∧
      (rc.parametersChanged = false → (∀ e ∈ evs, e = EditorEvent.tick) →
        (runEvents d rf fft window top bottom width evs (proc, rc)).2.monoChain
          = rc.monoChain) ∧
      ((runEvents d rf fft window top bottom width [EditorEvent.paramChange, EditorEvent.tick]
        (proc, rc)).2.monoChain = updateChain d proc.apvts proc.sampleRate rc.monoChain) := by
  intro C S d rf fft window top bottom width proc rc evs
  refine ⟨rfl, ?_, rfl, ?_, ?_⟩
  · cases h : rc.parametersChanged <;> simp [timerCallback, h]
  · intro h0 hall
    exact (runEvents_ticks_only d rf fft window top bottom width evs proc rc h0 hall).1
  · simp [runEvents, parameterValueChanged, timerCallback]

/-- Witness for C3: a single tick on a clear flag leaves the concrete
component's chain untouched. -/
theorem c3_witness :
    wRcc.parametersChanged = false ∧
    (runEvents wDesign wRf (fun xs => xs) [] 0 0 0 [EditorEvent.tick]
      (wProc, wRcc)).2.monoChain = wRcc.monoChain :=
  ⟨rfl, (c3_dirty_flag_compare_and_clear Unit Unit wDesign wRf (fun xs => xs) [] 0 0 0
    wProc wRcc [EditorEvent.tick]).2.2.2.1 rfl (by simp)⟩

/-- Helper: the sequential conditional multiplications of one cut band equal
the running magnitude times the band's product of non-bypassed section
responses. -/
theorem cutBandSeq_eq_product {C S : Type} (magAt : C → ℚ → ℚ → ℚ) (cf : CutFilter C S)
    (sampleRate freq m : ℚ) :
    cutBandSeq magAt cf sampleRate freq m = m * cutBandProduct magAt cf sampleRate freq := by
  rcases cf with ⟨s0, s1, s2, s3, b0, b1, b2, b3⟩
  cases b0 <;> cases b1 <;> cases b2 <;> cases b3 <;>
    simp [cutBandSeq, cutBandProduct] <;> ring

/-- Helper: the paint loop's sequential magnitude accumulation equals the
product over every non-bypassed stage. -/
theorem chainMagnitude_eq_product {C S : Type} (magAt : C → ℚ → ℚ → ℚ) (ch : MonoChain C S)
    (sampleRate freq : ℚ) :
    chainMagnitude magAt ch sampleRate freq = specStageProduct magAt ch sampleRate freq := by
  rcases ch with ⟨lc, pk, hc, lb, pb, hb⟩
  cases lb <;> cases pb <;> cases hb <;>
    simp [chainMagnitude, specStageProduct, cutBandSeq_eq_product]

/-- C1: for a display width of w pixels the paint loop computes, per pixel
column i, the frequency mapToLog10(i/w, 20, 20000) and the product of the
magnitude responses of every non-bypassed stage, a bypassed stage or band
contributing exactly unity (so a fully bypassed band contributes 0 dB, since
unity gain converts to 0 dB); the product is converted to dB and mapped
linearly from −24..24 dB onto the vertical pixel bounds. -/
theorem c1_response_curve_stage_product :
    ∀ (C S : Type) (rf : RealFuns) (magAt : C → ℚ → ℚ → ℚ) (ch : MonoChain C S)
      (sampleRate : ℚ) (w : ℕ),
      rf.log10 1 = 0 →
      (paintMags rf magAt ch sampleRate w =
        (List.range w).map (fun i =>
          gainToDecibels rf
            (specStageProduct magAt ch sampleRate
              (mapToLog10 rf ((i : ℚ) / (w : ℚ)) 20 20000))
            (-100))) ∧
      (∀ (freq : ℚ) (other : CutFilter C S) (otherPk : Filter C S),
        chainMagnitude magAt { ch with lowCutBypassed := true, lowCut := other }
            sampleRate freq =
          chainMagnitude magAt { ch with lowCutBypassed := true } sampleRate freq ∧
        chainMagnitude magAt { ch with highCutBypassed := true, highCut := other }
            sampleRate freq =
          chainMagnitude magAt { ch with highCutBypassed := true } sampleRate freq ∧
        chainMagnitude magAt { ch with peakBypassed := true, peak := otherPk }
            sampleRate freq =
          chainMagnitude magAt { ch with peakBypassed := true } sampleRate freq) ∧
      gainToDecibels rf 1 (-100) = 0 ∧
      (∀ (m a b : ℚ), jmap m (-24) 24 a b = a + ((b - a) * (m + 24)) / 48) := by
  intro C S rf magAt ch sampleRate w hlog
  refine ⟨?_, ?_, ?_, ?_⟩
  · simp [paintMags, chainMagnitude_eq_product]
  · intro freq other otherPk
    refine ⟨?_, ?_, ?_⟩ <;> simp [chainMagnitude]
  · simp [gainToDecibels, hlog]
  · intro m a b
    rw [jmap]
    norm_num

/-- Witness for C1: the concrete constant-zero log10 satisfies log10 1 = 0
and the paint loop of the concrete chain matches the stage product. -/
theorem c1_witness :
    wRf.log10 1 = 0 ∧
    paintMags wRf (fun _ _ _ => 1) wChain 48000 3 =
      (List.range 3).map (fun i =>
        gainToDecibels wRf
          (specStageProduct (fun _ _ _ => 1) wChain 48000
            (mapToLog10 wRf ((i : ℚ) / (3 : ℚ)) 20 20000))
          (-100)) :=
  ⟨rfl, (c1_response_curve_stage_product Unit Unit wRf (fun _ _ _ => 1) wChain 48000 3
    rfl).1⟩

/-- Helper: taking the first n entries of mapFirst n f xs gives the mapped
first n entries of xs. -/
theorem mapFirst_take (n : ℕ) (f : ℚ → ℚ) (xs : List ℚ) :
    (mapFirst n f xs).take n = (xs.take n).map f := by
  unfold mapFirst
  rcases le_or_lt n xs.length with h | h
  · rw [List.take_append_eq_append_take]
    have hlen : ((xs.take n).map f).length = n := by
      simp [min_eq_left h]
    rw [List.take_of_length_le (le_of_eq hlen), hlen]
    simp
  · have hd : xs.drop n = [] := List.drop_eq_nil_of_le h.le
    have hx : xs.take n = xs := List.take_of_length_le h.le
    rw [hd, hx, List.append_nil]
    exact List.take_of_length_le (by simp [h.le])

/-- C6: for every FFT pass, each of the first N/2 = fftSize/2 output bins is
the magnitude-only FFT value divided by N/2 and then converted to decibels
with a −48 dB floor (values at or below the floor clamp to −48 dB), and the
resulting frame is pushed into the frame queue. -/
theorem c6_fft_bins_normalized_db_floor :
    ∀ (g : FFTDataGenerator) (rf : RealFuns) (fft : List ℚ → List ℚ) (window : List ℚ)
      (audioData : List ℚ),
      ((g.produceFFTDataForRendering rf fft window audioData (-48)).fftData.take
          (g.getFFTSize / 2) =
        ((fft (multiplyWithWindowingTable window
            (audioData.take g.getFFTSize ++
              List.replicate (g.fftData.length - g.getFFTSize) 0)
            g.getFFTSize)).take (g.getFFTSize / 2)).map
          (fun v => gainToDecibels rf (v / ((g.getFFTSize / 2 : ℕ) : ℚ)) (-48))) ∧
      (g.fftDataFifo.items.length < g.fftDataFifo.capacity →
        (g.produceFFTDataForRendering rf fft window audioData (-48)).fftDataFifo.items =
          g.fftDataFifo.items ++
            [(g.produceFFTDataForRendering rf fft window audioData (-48)).fftData]) ∧
      (∀ gain : ℚ, (-48 : ℚ) ≤ gainToDecibels rf gain (-48) ∧
        (rf.log10 gain * 20 ≤ -48 → gainToDecibels rf gain (-48) = -48)) := by
  intro g rf fft window audioData
  refine ⟨?_, ?_, ?_⟩
  · simp only [FFTDataGenerator.produceFFTDataForRendering]
    rw [mapFirst_take, mapFirst_take, List.map_map]
    rfl
  · intro h
    simp [FFTDataGenerator.produceFFTDataForRendering, Fifo.push, h]
  · intro gain
    constructor
    · unfold gainToDecibels
      split
      · exact le_max_left _ _
      · exact le_refl _
    · intro hle
      unfold gainToDecibels
      split
      · exact max_eq_left hle
      · rfl

/-- Witness for C6: the concrete generator's frame queue has room, and the
produced frame is appended to it. -/
theorem c6_witness :
    wGen.fftDataFifo.items.length < wGen.fftDataFifo.capacity ∧
    (wGen.produceFFTDataForRendering wRf (fun xs => xs) [1, 1] [1, 1] (-48)).fftDataFifo.items =
      wGen.fftDataFifo.items ++
        [(wGen.produceFFTDataForRendering wRf (fun xs => xs) [1, 1] [1, 1] (-48)).fftData] :=
  ⟨by decide,
   (c6_fft_bins_normalized_db_floor wGen wRf (fun xs => xs) [1, 1] [1, 1]).2.1 (by decide)⟩

/-- Helper: closed form of the path-generation loop as a filterMap over its
visited bins, for an arbitrary starting bin. -/
theorem pathLoop_eq {V : Type} (toF : V → Option ℚ) (rf : RealFuns) (renderData : List V)
    (negativeInfinity bottom top width binWidth : ℚ) (numBins : ℕ) :
    ∀ (t binNum : ℕ), numBins - binNum = t →
      pathLoop toF rf renderData negativeInfinity bottom top width binWidth numBins binNum =
        ((List.range ((numBins - binNum + 1) / 2)).map (fun k => binNum + 2 * k)).filterMap
          (fun b =>
            match ((renderData.get? b).bind toF).map
                (fun v => jmap v negativeInfinity 0 bottom top) with
            | some y =>
              some ((((⌊mapFromLog10 rf ((b : ℚ) * binWidth) 20 20000 * width⌋ : ℤ) : ℚ)),
                some y)
            | none => none) := by
  intro t
  induction t using Nat.strong_induction_on with
  | _ t ih =>
    intro binNum ht
    by_cases h : binNum < numBins
    · have hrec := ih (numBins - (binNum + 2)) (by omega) (binNum + 2) rfl
      rw [pathLoop, dif_pos h, hrec]
      have hcount : (numBins - binNum + 1) / 2 = (numBins - (binNum + 2) + 1) / 2 + 1 := by
        omega
      rw [hcount, List.range_succ_eq_map]
      simp only [List.map_cons, List.map_map, List.filterMap_cons, Nat.mul_zero,
        Nat.add_zero]
      have hfun : ((fun k => binNum + 2 * k) ∘ Nat.succ) = fun k => binNum + 2 + 2 * k := by
        funext k
        simp [Function.comp, Nat.succ_eq_add_one]
        ring
      rw [hfun]
      cases hm : ((renderData.get? binNum).bind toF).map
          (fun v => jmap v negativeInfinity 0 bottom top) with
      | none => simp [hm]
      | some y => simp [hm]
    · rw [pathLoop, dif_neg h]
      have hz : (numBins - binNum + 1) / 2 = 0 := by omega
      rw [hz]
      rfl

/-- Helper: the generated path is its starting point followed by one point
per visited finite-valued bin, bins 1, 3, 5, … below numBins. -/
theorem buildPath_eq {V : Type} (toF : V → Option ℚ) (rf : RealFuns) (renderData : List V)
    (top bottom width : ℚ) (fftSize : ℕ) (binWidth negativeInfinity : ℚ) :
    buildPath toF rf renderData top bottom width fftSize binWidth negativeInfinity =
      ((0 : ℚ), ((renderData.get? 0).bind toF).map
          (fun v => jmap v negativeInfinity 0 bottom top)) ::
        specPathPoints toF rf renderData negativeInfinity bottom top width binWidth
          (fftSize / 2) := by
  unfold buildPath specPathPoints strideBins
  have hc : (fftSize / 2 - 1 + 1) / 2 = fftSize / 2 / 2 := by omega
  rw [pathLoop_eq toF rf renderData negativeInfinity bottom top width binWidth (fftSize / 2)
    (fftSize / 2 - 1) 1 rfl, hc]

/-- C7 (amended): bins are visited from bin 1 with a fixed stride of 2, each
visited bin's frequency binNum·binWidth is mapped through the log10 axis
from 20 Hz to 20 kHz to the point's x coordinate, and a bin whose mapped
value is non-finite is skipped, the path continuing from the next valid
point; bins below 20 Hz are however not skipped (see the counterexample). -/
theorem c7_path_generation_structure :
    ∀ (V : Type) (toF : V → Option ℚ) (rf : RealFuns) (renderData : List V)
      (top bottom width : ℚ) (fftSize : ℕ) (binWidth negativeInfinity : ℚ),
      buildPath toF rf renderData top bottom width fftSize binWidth negativeInfinity =
        ((0 : ℚ), ((renderData.get? 0).bind toF).map
            (fun v => jmap v negativeInfinity 0 bottom top)) ::
          specPathPoints toF rf renderData negativeInfinity bottom top width binWidth
            (fftSize / 2) :=
  fun _ toF rf renderData top bottom width fftSize binWidth negativeInfinity =>
    buildPath_eq toF rf renderData top bottom width fftSize binWidth negativeInfinity

/-- Counterexample for C7 as frozen: with binWidth = 10 the visited bin 1 has
frequency 1·10 = 10 Hz, below the lowest displayed frequency 20 Hz, yet the
generated path still contains a point for it (two points in total instead of
the starting point alone), so sub-20 Hz bins are not skipped. -/
theorem c7_counterexample_sub20hz_bin_kept :
    buildPath some wRf [(0 : ℚ), 0] 0 100 100 4 10 (-48) =
      [((0 : ℚ), some (0 : ℚ)), ((0 : ℚ), some (0 : ℚ))] ∧
    ((1 : ℚ) * 10 < 20) := by
  rw [buildPath_eq]
  constructor
  · norm_num [specPathPoints, strideBins, jmap, mapFromLog10, wRf, List.range_succ,
      List.filterMap_cons, List.filterMap_nil]
  · norm_num

/-- Helper: the drain loop empties the queue and returns the last queued
item, defaulting to the current one. -/
theorem drainPaths_spec {P : Type} (l : List P) (cur : P) :
    drainPaths l cur = ([], l.getLastD cur) := by
  induction l generalizing cur with
  | nil => rfl
  | cons p rest ih => rw [drainPaths, ih, List.getLastD_cons]

/-- Helper: folding generatePath over a batch of frames appends one built
path per frame to the queue, provided the batch fits the capacity. -/
theorem foldl_generatePath_items {V : Type} (toF : V → Option ℚ) (rf : RealFuns)
    (top bottom width : ℚ) (fftSize : ℕ) (binWidth negativeInfinity : ℚ) :
    ∀ (frames : List (List V)) (g : AnalyserPathGenerator),
      g.pathFifo.items.length + frames.length ≤ g.pathFifo.capacity →
      (frames.foldl (fun a fr =>
          a.generatePath toF rf fr top bottom width fftSize binWidth negativeInfinity)
        g).pathFifo.items =
        g.pathFifo.items ++ frames.map (fun fr =>
          buildPath toF rf fr top bottom width fftSize binWidth negativeInfinity) := by
  intro frames
  induction frames with
  | nil =>
    intro g _
    simp
  | cons fr rest ih =>
    intro g h
    have hroom : g.pathFifo.items.length < g.pathFifo.capacity := by
      simp at h
      omega
    have hg2 : (g.generatePath toF rf fr top bottom width fftSize binWidth
        negativeInfinity).pathFifo.items =
        g.pathFifo.items ++ [buildPath toF rf fr top bottom width fftSize binWidth
          negativeInfinity] := by
      simp [AnalyserPathGenerator.generatePath, Fifo.push, hroom]
    have hcap : (g.generatePath toF rf fr top bottom width fftSize binWidth
        negativeInfinity).pathFifo.capacity = g.pathFifo.capacity := by
      simp [AnalyserPathGenerator.generatePath, Fifo.push, hroom]
    rw [List.foldl_cons, ih _ (by rw [hg2, hcap]; simp at h ⊢; omega), hg2]
    simp

/-- C8: after each analysis cycle of PathProducer::process the path queue has
been drained to empty, and — generically, for a batch of frames that fits
the queue — generating one path per frame and draining leaves the
consumer-visible path equal to the most recently generated one, older queued
paths being discarded (latest-wins). -/
theorem c8_path_queue_latest_wins :
    ∀ (pp : PathProducer) (rf : RealFuns) (fft : List ℚ → List ℚ) (window : List ℚ)
      (top bottom width sampleRate : ℚ) (scsf : SingleChannelSampleFifo),
      ((pp.process rf fft window top bottom width sampleRate
        scsf).2.pathProducer.pathFifo.items = []) ∧
      (∀ (V : Type) (toF : V → Option ℚ) (frames : List (List V))
        (g : AnalyserPathGenerator) (current : PathPoints) (fftSize : ℕ)
        (binWidth negativeInfinity : ℚ),
        g.pathFifo.items = [] → frames.length ≤ g.pathFifo.capacity →
        drainPaths ((frames.foldl (fun a fr =>
            a.generatePath toF rf fr top bottom width fftSize binWidth negativeInfinity)
          g).pathFifo.items) current =
          ([], (frames.map (fun fr =>
            buildPath toF rf fr top bottom width fftSize binWidth
              negativeInfinity)).getLastD current)) := by
  intro pp rf fft window top bottom width sampleRate scsf
  constructor
  · simp [PathProducer.process, drainPaths_spec]
  · intro V toF frames g current fftSize binWidth negativeInfinity hempty hfit
    rw [foldl_generatePath_items toF rf top bottom width fftSize binWidth negativeInfinity
      frames g (by rw [hempty]; simpa using hfit), hempty, List.nil_append,
      drainPaths_spec]

/-- Witness for C8: one concrete frame through an empty path queue leaves the
queue empty and the built path visible. -/
theorem c8_witness :
    wPathGen.pathFifo.items = [] ∧
    ([[(1 : ℚ)]] : List (List ℚ)).length ≤ wPathGen.pathFifo.capacity ∧
    drainPaths ((([[(1 : ℚ)]] : List (List ℚ)).foldl (fun a fr =>
        a.generatePath some wRf fr 0 100 100 4 10 (-48)) wPathGen).pathFifo.items) [] =
      ([], (([[(1 : ℚ)]] : List (List ℚ)).map (fun fr =>
        buildPath some wRf fr 0 100 100 4 10 (-48))).getLastD []) :=
  ⟨rfl, by decide,
   (c8_path_queue_latest_wins wPathProducer wRf (fun xs => xs) [] 0 100 100 48000 wScsf).2
     ℚ some [[(1 : ℚ)]] wPathGen [] 4 10 (-48) rfl (by decide)⟩

/-- Counterexample for C2 as frozen: with the analysis-enable flag false in
the display component, one processBlock call still moves data into the
sample queue (its items go from empty to one buffer), so queue traffic does
occur while the flag is false — the audio thread's producer side never
consults the flag. -/
theorem c2_counterexample_sample_queue_traffic :
    wRcc.shouldShowFFTAnalysis = false ∧
    wProc.leftChannelFifo.audioBufferFifo.items = [] ∧
    Option.map (fun r => r.1.leftChannelFifo.audioBufferFifo.items)
      (processBlock wDesign wBq wProc [[1], [1]]) = some [[1]] := by
  refine ⟨rfl, rfl, ?_⟩
  decide

/-- C2 (amended): when the analysis-enable flag is false the polling side
skips the spectrum pipeline entirely — the sample queues are not drained,
the path producers and path queues are untouched — while the response-curve
calculator stays active (the dirty-flag check still runs updateChain); the
audio thread however keeps pushing the processed channels into the sample
queues regardless of the flag. -/
theorem c2_amended_analysis_toggle :
    ∀ (C S : Type) (d : FilterDesign C) (rf : RealFuns) (fft : List ℚ → List ℚ)
      (window : List ℚ) (top bottom width : ℚ) (proc : ProcessorState C S)
      (rc : ResponseCurveComponent C S),
      rc.shouldShowFFTAnalysis = false →
      ((timerCallback d rf fft window top bottom width proc rc).1.leftChannelFifo
        = proc.leftChannelFifo) ∧
      ((timerCallback d rf fft window top bottom width proc rc).1.rightChannelFifo
        = proc.rightChannelFifo) ∧
      ((timerCallback d rf fft window top bottom width proc rc).2.leftPathProducer
        = rc.leftPathProducer) ∧
      ((timerCallback d rf fft window top bottom width proc rc).2.rightPathProducer
        = rc.rightPathProducer) ∧
      ((timerCallback d rf fft window top bottom width proc rc).2.monoChain =
        if rc.parametersChanged then updateChain d proc.apvts proc.sampleRate rc.monoChain
        else rc.monoChain) ∧
      (∀ (bq : C → S → ℚ → S × ℚ) (ch0 ch1 : List ℚ) (rest : List (List ℚ)),
        Option.map (fun r => (r.1.leftChannelFifo, r.1.rightChannelFifo))
          (processBlock d bq proc (ch0 :: ch1 :: rest)) =
        some (proc.leftChannelFifo.update
            (processMonoChain bq
              (updateFilters d proc.apvts proc.sampleRate proc.chains).leftChain ch0).2,
          proc.rightChannelFifo.update
            (processMonoChain bq
              (updateFilters d proc.apvts proc.sampleRate proc.chains).rightChain ch1).2)) := by
  intro C S d rf fft window top bottom width proc rc h
  refine ⟨?_, ?_, ?_, ?_, rfl, ?_⟩
  · simp [timerCallback, h]
  · simp [timerCallback, h]
  · simp [timerCallback, h]
  · simp [timerCallback, h]
  · intro bq ch0 ch1 rest
    simp [processBlock]

/-- Witness for C2 (amended): with the concrete component's flag false, a
tick leaves the concrete processor's sample queue unchanged. -/
theorem c2_witness :
    wRcc.shouldShowFFTAnalysis = false ∧
    (timerCallback wDesign wRf (fun xs => xs) [] 0 0 0 wProc wRcc).1.leftChannelFifo
      = wProc.leftChannelFifo :=
  ⟨rfl, (c2_amended_analysis_toggle Unit Unit wDesign wRf (fun xs => xs) [] 0 0 0
    wProc wRcc rfl).1⟩

end ZooEQ
